import Mathlib

/-!
Verification development for the Vibe-Song-Sync acquisition pipeline.

The definitions below are a shallow embedding of the Python sources:
`src/core/scraper.py` (page fetching and reconciliation),
`src/core/database.py` (catalog store), `src/core/downloader.py`
(archive fetching) and `src/core/threads.py` (download orchestration).
External effects (HTTP requests, the filesystem, `random.uniform`,
wall-clock sleeps) are modelled as explicit oracle parameters; mutable
Python dictionaries become records that are threaded through the
functions; SQLite tables become association lists keyed by the primary
key.  Byte-level chunk progress reporting and wall-clock timing fields
(`download_size`, `download_time`, ETA strings) are not modelled: no
statement below concerns them.
-/

/-! ### Track records produced by the scraper (`scraper.py`, `_extract_song_data`) -/

/-- One scraped song row, the dictionary built by
`SongScraper._extract_song_data`.  `artist_url`, `title_url`,
`order_date` and `download_url` may be `None` in Python. -/
structure Song where
  song_id : String
  artist : String
  artist_url : Option String
  title : String
  title_url : Option String
  order_date : Option String
  download_url : Option String
deriving DecidableEq

/-- A per-attempt failure of `scrape_songs_on_page`: the single
`except` clause catches both network errors (`session.get`,
`raise_for_status`) and parse errors. -/
inductive PageErr
  | network
  | parse
deriving DecidableEq

/-- Observable outcome of one `scrape_songs_on_page` call: the returned
`(songs, has_next_page)` pair, the number of attempts performed, and the
backoff sleeps (in seconds) between consecutive attempts. -/
structure PageFetchRun where
  result : List Song × Bool
  attemptsMade : Nat
  sleeps : List Nat
deriving DecidableEq

/-- The retry loop of `SongScraper.scrape_songs_on_page`
(`for attempt in range(max_retries)`).  `fetchRes attempt` is the oracle
for attempt number `attempt` (0-based): either the parsed page content
or the exception caught by the `except` clause.  On the last attempt's
failure the function returns `([], False)`; otherwise it sleeps
`2 ** attempt` seconds and retries. -/
def scrapePageLoop (fetchRes : Nat → Except PageErr (List Song × Bool)) (maxRetries : Nat)
    (attempt : Nat) : PageFetchRun :=
  if _h : attempt < maxRetries then
    match fetchRes attempt with
    | .ok res => ⟨res, attempt + 1, []⟩
    | .error _ =>
      if attempt == maxRetries - 1 then
        ⟨([], false), attempt + 1, []⟩
      else
        let rest := scrapePageLoop fetchRes maxRetries (attempt + 1)
        ⟨rest.result, rest.attemptsMade, 2 ^ attempt :: rest.sleeps⟩
  else
    -- the `for` loop was exhausted without returning (only when maxRetries = 0)
    ⟨([], false), attempt, []⟩
termination_by maxRetries - attempt
decreasing_by omega

/-- `SongScraper.scrape_songs_on_page(page_number, max_retries=3)`.
The page number is folded into the `fetchRes` oracle. -/
def scrape_songs_on_page (fetchRes : Nat → Except PageErr (List Song × Bool))
    (maxRetries : Nat := 3) : PageFetchRun :=
  scrapePageLoop fetchRes maxRetries 0

/-! ### `SongScraper.scrape_all_pages` (the Catalog Reconciler) -/

/-- What `future.result()` yields for one page inside `as_completed`:
either an exception (the page is recorded in `failed_pages`) or the
page's song list (the `has_next_page` component is discarded by
`scrape_all_pages`). -/
inductive PageOutcome
  | error
  | ok (songs : List Song)
deriving DecidableEq

/-- The early-stop test
`last_song_id and song["song_id"] == last_song_id and not validate`:
note that an empty-string `last_song_id` is falsy in Python. -/
def isLastSong (lastSongId : Option String) (validate : Bool) (s : Song) : Bool :=
  match lastSongId with
  | none => false
  | some lid => !(lid == "") && s.song_id == lid && !validate

/-- The inner `for song in songs` loop of `scrape_all_pages`: append
songs until the watermark is seen; return the appended songs and the
`found_last_song` flag. -/
def collectSongs (lastSongId : Option String) (validate : Bool) :
    List Song → List Song × Bool
  | [] => ([], false)
  | s :: rest =>
    if isLastSong lastSongId validate s then ([], true)
    else
      let r := collectSongs lastSongId validate rest
      (s :: r.1, r.2)

/-- The `for future in as_completed(futures)` loop of
`scrape_all_pages`.  `completions` lists each page's number and outcome
in completion order (an arbitrary interleaving of the submitted pages).
Returns `(all_songs, failed_pages)`.  When the watermark is found the
loop breaks: later completions are discarded. -/
def scrapeCompleted (lastSongId : Option String) (validate : Bool) :
    List (Nat × PageOutcome) → List Song × List Nat
  | [] => ([], [])
  | (pn, .error) :: rest =>
    let r := scrapeCompleted lastSongId validate rest
    (r.1, pn :: r.2)
  | (_, .ok songs) :: rest =>
    let c := collectSongs lastSongId validate songs
    if c.2 then (c.1, [])
    else
      let r := scrapeCompleted lastSongId validate rest
      (c.1 ++ r.1, r.2)

/-- `SongScraper.scrape_all_pages(last_song_id, validate)`: dispatches
all pages to a pool and merges results in completion order. -/
def scrape_all_pages (completions : List (Nat × PageOutcome))
    (lastSongId : Option String := none) (validate : Bool := false) :
    List Song × List Nat :=
  scrapeCompleted lastSongId validate completions

/-! ### Catalog Store (`database.py`) -/

/-- A Python dictionary entry as seen by `dict.get`: the key may be
absent, present with value `None`, or present with a string.  All three
are falsy when absent, `None`, or the empty string. -/
inductive FieldVal
  | absent
  | null
  | str (s : String)
deriving DecidableEq

/-- Python truthiness test `not song.get(field)`. -/
def FieldVal.falsy : FieldVal → Bool
  | .absent => true
  | .null => true
  | .str s => s == ""

/-- `dict.get(field, default)` with a string default: the default is
used only when the key is absent.  The result is the value bound into
the SQL statement (`none` = SQL NULL). -/
def FieldVal.getD (v : FieldVal) (d : String) : Option String :=
  match v with
  | .absent => some d
  | .null => none
  | .str s => some s

/-- `dict.get(field)` (default `None`). -/
def FieldVal.getOpt : FieldVal → Option String
  | .absent => none
  | .null => none
  | .str s => some s

/-- The `file_path` dictionary entry handled by
`save_song`/`update_song`: absent, a plain string, or a list. -/
inductive FilePathVal
  | absent
  | str (s : String)
  | list (l : List String)
deriving DecidableEq

/-- `file_paths = song.get("file_path", ""); if isinstance(file_paths, str):
file_paths = [file_paths] if file_paths else []`. -/
def FilePathVal.normalize : FilePathVal → List String
  | .absent => []
  | .str s => if s == "" then [] else [s]
  | .list l => l

/-- The song dictionary passed to `DatabaseManager.save_song`. -/
structure SongInput where
  song_id : FieldVal
  artist : FieldVal
  artist_url : FieldVal
  title : FieldVal
  title_url : FieldVal
  order_date : FieldVal
  download_url : FieldVal
  file_path : FilePathVal
  downloaded : Option Int
  extracted : Option Int
deriving DecidableEq

/-- One row of the `purchased_songs` table.  Nullable TEXT columns are
`Option String`; `file_path` stores the JSON-encoded list, modelled as
the list itself. -/
structure SongRow where
  song_id : String
  artist : Option String
  artist_url : Option String
  title : Option String
  title_url : Option String
  order_date : Option String
  download_url : Option String
  file_path : List String
  downloaded : Int
  extracted : Int
deriving DecidableEq

/-- The required-field loop of `save_song`:
`if not song.get(field): song[field] = song.get(field, "Unknown")`.
Only an absent key actually becomes `"Unknown"`; a present `None` or
empty string is re-assigned unchanged. -/
def normalizeRequired (v : FieldVal) : FieldVal :=
  if v.falsy then
    match v with
    | .absent => .str "Unknown"
    | x => x
  else v

/-- The row bound by `save_song`'s `INSERT OR REPLACE` statement. -/
def makeRow (song : SongInput) : SongRow :=
  let artist := normalizeRequired song.artist
  let title := normalizeRequired song.title
  { song_id := match song.song_id with | .str s => s | _ => ""
    artist := artist.getD "Unknown"
    artist_url := song.artist_url.getD ""
    title := title.getD "Unknown"
    title_url := song.title_url.getD ""
    order_date := song.order_date.getOpt
    download_url := song.download_url.getD ""
    file_path := song.file_path.normalize
    downloaded := song.downloaded.getD 0
    extracted := song.extracted.getD 0 }

/-- `INSERT OR REPLACE` into a table whose PRIMARY KEY is `song_id`:
replace the existing row for that key, or add a new row. -/
def upsertRow : List SongRow → SongRow → List SongRow
  | [], r => [r]
  | x :: xs, r => if x.song_id == r.song_id then r :: xs else x :: upsertRow xs r

/-- `DatabaseManager.save_song`: validation
(`if not song or not song.get("song_id"): raise ValueError(...)`)
followed by the upsert. -/
def save_song (db : List SongRow) (song : SongInput) : Except String (List SongRow) :=
  if song.song_id.falsy then .error "Song data is missing or invalid"
  else .ok (upsertRow db (makeRow song))

/-- A `save_song` call as the caller observes it: the table afterwards
and whether `ValueError` was raised (the raise happens before any SQL
runs, so the table is untouched on failure). -/
def save_song_run (db : List SongRow) (song : SongInput) : List SongRow × Bool :=
  match save_song db song with
  | .error _ => (db, true)
  | .ok db' => (db', false)

/-- A sequence of `save_song` calls (failed calls leave the table
unchanged and the sequence continues). -/
def runSaves (db : List SongRow) : List SongInput → List SongRow
  | [] => db
  | s :: rest => runSaves (save_song_run db s).1 rest

/-- Point lookup by primary key (`SELECT ... WHERE song_id = ?`). -/
def lookupRow (db : List SongRow) (id : String) : Option SongRow :=
  db.find? (fun r => r.song_id == id)

/-- The primary-key column of the table. -/
def dbKeys (db : List SongRow) : List String := db.map (·.song_id)

/-- The row produced by the *last* upsert with the given identifier in a
list of successfully upserted rows, if any. -/
def lastMatch (id : String) : List SongRow → Option SongRow
  | [] => none
  | r :: rest =>
    match lastMatch id rest with
    | some x => some x
    | none => if r.song_id == id then some r else none

/-- The row a `save_song` call would store, when its input passes
validation. -/
def validRow? (s : SongInput) : Option SongRow :=
  if s.song_id.falsy then none else some (makeRow s)

/-! ### Operation log (`database.py`, `start_log_operation` /
`update_log_operation`) -/

/-- One row of the `operation_logs` table.  `start_time`/`end_time` are
ISO-8601 strings in SQLite; since ISO strings compare chronologically,
they are modelled as naturals. -/
structure LogEntry where
  id : String
  operation : String
  start_time : Nat
  end_time : Option Nat
  status : String
  details : String
deriving DecidableEq

/-- `ORDER BY start_time DESC`. -/
def logDesc (a b : LogEntry) : Prop := b.start_time ≤ a.start_time

instance : DecidableRel logDesc := fun a b => Nat.decLe b.start_time a.start_time

instance : IsTotal LogEntry logDesc :=
  ⟨fun a b => (Nat.le_total b.start_time a.start_time).imp id id⟩

instance : IsTrans LogEntry logDesc :=
  ⟨fun _ _ _ h1 h2 => Nat.le_trans h2 h1⟩

/-- The UPDATE statement of `update_log_operation`:
`SET end_time = ?, status = ?, details = ? WHERE id = ?`. -/
def applyLogUpdate (log : List LogEntry) (logId : String) (status details : String)
    (endTime : Nat) : List LogEntry :=
  log.map (fun e =>
    if e.id == logId then { e with end_time := some endTime, status := status, details := details }
    else e)

/-- The purge that follows:
`DELETE FROM operation_logs WHERE id NOT IN (SELECT id FROM
operation_logs ORDER BY start_time DESC LIMIT 100)` — keep the 100
entries with the latest start times. -/
def purgeOldLogs (log : List LogEntry) : List LogEntry :=
  (List.insertionSort logDesc log).take 100

/-- `DatabaseManager.update_log_operation(log_id, status, details)`. -/
def update_log_operation (log : List LogEntry) (logId : String) (status details : String)
    (endTime : Nat) : List LogEntry :=
  purgeOldLogs (applyLogUpdate log logId status details endTime)

/-! ### Archive Fetcher (`downloader.py`, `SongDownloader.download_song`) -/

/-- The character class kept by
`re.sub(r"[^a-zA-Z0-9\s\-\(\)&']", "", ...)` in `sanitize_filename`:
letters, digits, whitespace, `-`, `(`, `)`, `&` and the apostrophe
(code point 39). -/
def sanitizeAllowed (c : Char) : Bool :=
  ('a' ≤ c && c ≤ 'z') || ('A' ≤ c && c ≤ 'Z') || ('0' ≤ c && c ≤ '9') ||
  c == ' ' || c == '\t' || c == '\n' || c == '\r' || c.toNat == 11 || c.toNat == 12 ||
  c == '-' || c == '(' || c == ')' || c == '&' || c.toNat == 39

/-- Python's `str.strip()` whitespace set. -/
def pyWhitespace (c : Char) : Bool :=
  c == ' ' || c == '\t' || c == '\n' || c == '\r' || c.toNat == 11 || c.toNat == 12

/-- Python's `str.strip()`. -/
def pyStrip (s : String) : String :=
  String.mk (((s.toList.dropWhile pyWhitespace).reverse.dropWhile pyWhitespace).reverse)

/-- `re.sub(pattern, "", s)` for the sanitizer's character class. -/
def reSubSanitize (s : String) : String :=
  String.mk (s.toList.filter sanitizeAllowed)

/-- `src/core/utils.py`, `sanitize_filename(artist, title, song_id)`:
`f"{sanitized_artist} - {sanitized_title} - {song_id}.zip"`. -/
def sanitize_filename (artist title song_id : String) : String :=
  pyStrip (reSubSanitize artist) ++ " - " ++ pyStrip (reSubSanitize title) ++ " - "
    ++ song_id ++ ".zip"

/-- The song dictionary as threaded through `SongDownloader.download_song`
and `DownloadThread.download_and_update` (one row of the catalog, plus
the mutable `file_path`/`downloaded`/`extracted` state). -/
structure DlSong where
  song_id : String
  artist : String
  title : String
  artist_url : Option String
  title_url : Option String
  order_date : Option String
  download_url : String
  file_path : List String
  downloaded : Int
  extracted : Int
deriving DecidableEq

/-- Existence of the two files `download_song` manipulates for one song:
the final archive `<name>.zip` and its temporary sibling `<name>.tmp`. -/
structure FileState where
  finalExists : Bool
  tmpExists : Bool
deriving DecidableEq

/-- Qt signals emitted by `SongDownloader` for one song.  The per-chunk
`download_progress` signal is not modelled. -/
inductive DlEvent
  | finished (song_id : String)
  | failed (song_id : String) (msg : String)
  | completed (song_id : String)
deriving DecidableEq

/-- Environment outcome of one outer download attempt (one iteration of
`for attempt in range(1, max_retries + 1)`):
* `resolveFail` — `get_direct_download_url` returned `None` after its 3
  internal tries, so a plain `Exception` is raised (3 HTTP requests);
* `requestError` — `requests.RequestException` during the streaming GET
  (after the resolution succeeded on try `resolveTries`); `tmpCreated`
  records whether the `.tmp` file had already been opened for writing;
* `integrityFail` — the stream completed and the `.tmp` file was renamed
  to the final name, but `verify_zip_file` failed (deleting the final
  file) and a plain `Exception` is raised;
* `otherFail` — any other exception in the attempt body;
* `ok` — resolution (on try `resolveTries`), streaming, rename and
  verification all succeeded. -/
inductive AttemptOutcome
  | resolveFail
  | requestError (resolveTries : Nat) (tmpCreated : Bool)
  | integrityFail (resolveTries : Nat)
  | otherFail (resolveTries : Nat) (tmpCreated : Bool)
  | ok (resolveTries : Nat)
deriving DecidableEq

/-- Did the attempt succeed? -/
def isOkOutcome : AttemptOutcome → Bool
  | .ok _ => true
  | _ => false

/-- Failure kinds that reach the generic `except Exception` handler,
whose body deletes partial final/temp files.  A
`requests.RequestException` is caught by the earlier handler, which only
logs. -/
def cleanupOutcome : AttemptOutcome → Bool
  | .resolveFail => true
  | .integrityFail _ => true
  | .otherFail _ _ => true
  | _ => false

/-- Oracle for `handle_zip_extraction` (only consulted when
`unzip_songs` is set): either an exception escaped it, or it returned
`files` with `zipRemoved` recording whether the original archive was
deleted (`delete_zip`) or renamed to a `.bak` sibling. -/
inductive ExtractResult
  | raised
  | extracted (files : List String) (zipRemoved : Bool)
deriving DecidableEq

/-- Observable state of one `download_song` call: the (mutated) song
dictionary, the final/temp file state, the emitted signals, the number
of HTTP requests issued, the backoff sleeps
(`attempt slept after`, `seconds`), and, after each failed attempt, the
file state in which the next step begins. -/
structure DlState where
  song : DlSong
  fs : FileState
  events : List DlEvent
  netRequests : Nat
  backoffSleeps : List (Nat × ℚ)
  fsTrace : List (Nat × AttemptOutcome × FileState)
deriving DecidableEq

/-- File state after a failed attempt's `except` handler ran: the
generic handler deletes both partial files; the
`requests.RequestException` handler deletes nothing. -/
def failFs (fs : FileState) : AttemptOutcome → FileState
  | .resolveFail => ⟨false, false⟩
  | .requestError _ tmpCreated => ⟨fs.finalExists, fs.tmpExists || tmpCreated⟩
  | .integrityFail _ => ⟨false, false⟩
  | .otherFail _ _ => ⟨false, false⟩
  | .ok _ => fs

/-- HTTP requests issued by one attempt. -/
def outcomeRequests : AttemptOutcome → Nat
  | .resolveFail => 3
  | .requestError rt _ => rt + 1
  | .integrityFail rt => rt + 1
  | .otherFail rt _ => rt + 1
  | .ok rt => rt + 1

/-- Record one failed attempt: run its `except` handler and append the
resulting file state to the trace. -/
def applyFail (attempt : Nat) (o : AttemptOutcome) (st : DlState) : DlState :=
  let fs' := failFs st.fs o
  { st with
    fs := fs'
    netRequests := st.netRequests + outcomeRequests o
    fsTrace := st.fsTrace ++ [(attempt, o, fs')] }

/-- The success tail of the attempt body: the `.tmp` file was renamed to
the final name and verified; then the optional extraction, the song
mutations, and the `download_finished` / `song_download_completed`
signals. -/
def applySuccess (unzip : Bool) (fileName : String) (extract : ExtractResult)
    (rt : Nat) (st : DlState) : DlState :=
  let sid := st.song.song_id
  let base := { st with netRequests := st.netRequests + outcomeRequests (.ok rt) }
  if unzip then
    match extract with
    | .raised =>
      { base with
        song := { st.song with file_path := [fileName], extracted := 0, downloaded := 1 }
        fs := ⟨true, false⟩
        events := st.events ++ [.finished sid, .completed sid] }
    | .extracted files zipRemoved =>
      { base with
        song := { st.song with file_path := files, extracted := 1, downloaded := 1 }
        fs := ⟨!zipRemoved, false⟩
        events := st.events ++ [.finished sid, .completed sid] }
  else
    { base with
      song := { st.song with file_path := [fileName], extracted := 0, downloaded := 1 }
      fs := ⟨true, false⟩
      events := st.events ++ [.finished sid, .completed sid] }

/-- The code after the loop (`# All attempts failed`): mark the song
not-downloaded and emit `download_failed` with the terminal message. -/
def applyExhausted (st : DlState) : DlState :=
  { st with
    song := { st.song with downloaded := 0 }
    events := st.events ++ [.failed st.song.song_id "Download failed after 5 attempts"] }

/-- The backoff between attempts:
`sleep_time = min(2 ** (attempt - 1) + random.uniform(0, 1), 30)`. -/
def addSleep (attempt : Nat) (r : Nat → ℚ) (st : DlState) : DlState :=
  { st with
    backoffSleeps :=
      st.backoffSleeps ++ [(attempt, min ((2 : ℚ) ^ (attempt - 1) + r attempt) 30)] }

/-- The retry loop `for attempt in range(1, max_retries + 1)` of
`download_song`, with `max_retries = 5`.  `fuel` counts the attempts
still available after the current one, so the call with fuel `f + 1`
runs attempt `5 - f`; `dlLoop ... 0` is the fall-through to the
all-attempts-failed code.  `o attempt` is the environment's outcome for
that attempt and `r attempt` the value drawn by `random.uniform(0, 1)`
before the next one. -/
def dlLoop (o : Nat → AttemptOutcome) (r : Nat → ℚ) (unzip : Bool)
    (fileName : String) (extract : ExtractResult) : Nat → DlState → DlState
  | 0, st => applyExhausted st
  | fuel + 1, st =>
    match o (5 - fuel) with
    | .ok rt => applySuccess unzip fileName extract rt st
    | fo =>
      if fuel = 0 then
        -- `if attempt < max_retries` is false: no sleep; the loop ends and
        -- the all-attempts-failed code (`dlLoop ... 0`) runs
        applyExhausted (applyFail (5 - fuel) fo st)
      else
        dlLoop o r unzip fileName extract fuel (addSleep (5 - fuel) r (applyFail (5 - fuel) fo st))

/-- `SongDownloader.download_song(song, unzip_songs, delete_zip)`.
`fs0` is the initial state of the target/temp files and `initValid`
whether an existing target passes `verify_zip_file` (which deletes the
file when the check fails).  `delete_zip` only influences
`handle_zip_extraction`, which is oracled by `extract`. -/
def download_song (o : Nat → AttemptOutcome) (r : Nat → ℚ) (song : DlSong)
    (unzip : Bool) (extract : ExtractResult) (fs0 : FileState) (initValid : Bool) :
    DlState :=
  let fileName := sanitize_filename song.artist song.title song.song_id
  if fs0.finalExists && initValid then
    -- already present and valid: no network call, file left untouched
    { song := { song with file_path := [fileName], downloaded := 1 }
      fs := fs0
      events := [.finished song.song_id]
      netRequests := 0
      backoffSleeps := []
      fsTrace := [] }
  else
    -- an existing-but-corrupt file was already unlinked by `verify_zip_file`,
    -- so the following `if file_path.exists(): file_path.unlink()` leaves
    -- no final file either way
    dlLoop o r unzip fileName extract 5
      { song := song
        fs := ⟨false, fs0.tmpExists⟩
        events := []
        netRequests := 0
        backoffSleeps := []
        fsTrace := [] }

/-! ### Download Orchestrator (`threads.py`, `DownloadThread`) -/

/-- `DatabaseManager.update_song`: `UPDATE purchased_songs SET ... WHERE
song_id = ?` — every column except the key is overwritten from the
dictionary. -/
def rowOfDlSong (s : DlSong) (old : SongRow) : SongRow :=
  { old with
    artist := some s.artist
    artist_url := s.artist_url
    title := some s.title
    title_url := s.title_url
    order_date := s.order_date
    download_url := some s.download_url
    file_path := s.file_path
    downloaded := s.downloaded
    extracted := s.extracted }

/-- The table after `update_song(song)` (no row is created if the key is
absent). -/
def update_song_db (db : List SongRow) (s : DlSong) : List SongRow :=
  db.map (fun row => if row.song_id == s.song_id then rowOfDlSong s row else row)

/-- Result of one `download_and_update(song)` worker call inside
`DownloadThread.run`. -/
structure OrchResult where
  song : DlSong
  db : List SongRow
  fetchEvents : List DlEvent
  downloadedCountDelta : Nat
deriving DecidableEq

/-- `DownloadThread.run`'s inner `download_and_update`: skip when the
stop flag is set or the song is already downloaded; otherwise call
`download_song` and — because `download_song` always returns normally,
signalling failure only through events and the `downloaded` flag — fall
through to `song["downloaded"] = 1`, the counter increment, and
`update_song`; the `except` retry arms are unreachable. -/
def download_and_update (stopFlag : Bool) (o : Nat → AttemptOutcome) (r : Nat → ℚ)
    (unzip : Bool) (extract : ExtractResult) (fs0 : FileState) (initValid : Bool)
    (song : DlSong) (db : List SongRow) : OrchResult :=
  if stopFlag then ⟨song, db, [], 0⟩
  else if song.downloaded == 0 then
    let st := download_song o r song unzip extract fs0 initValid
    let song' := { st.song with downloaded := 1 }
    ⟨song', update_song_db db song', st.events, 1⟩
  else ⟨song, db, [], 0⟩

/-- The stored track of the new-purchase-delta scenario. -/
def kv100 : Song := ⟨"KV100", "A0", none, "T0", none, some "2024-01-01", some "/dl0"⟩

/-- The newly purchased track of the scenario. -/
def kv101 : Song := ⟨"KV101", "A1", none, "T1", none, some "2024-02-01", some "/dl1"⟩

/-- An older track, already known as of watermark `KV100` (it sits after
`KV100` in the newest-first listing). -/
def kv099 : Song := ⟨"KV099", "A9", none, "T9", none, some "2023-12-01", some "/dl9"⟩

/-- A record with a non-empty identifier but an *empty-string* artist:
`save_song` stores the empty string, not `"Unknown"`. -/
def c10song : SongInput :=
  ⟨.str "KV1", .str "", .absent, .str "T", .absent, .absent, .absent, .absent, none, none⟩

/-- The cleanup property of a run's file-state trace: every failed
attempt that went through the generic `except Exception` handler left
neither a final nor a temp file for the next step. -/
def fsCleanupInv (st : DlState) : Prop :=
  ∀ e ∈ st.fsTrace, cleanupOutcome e.2.1 = true → e.2.2 = ⟨false, false⟩

/-- A song fixture for the downloader failure runs. -/
def c4song : DlSong := ⟨"KV4", "A4", "T4", none, none, none, "/dl4", [], 0, 0⟩

/-- The backoff-sleep property of a run: every recorded sleep follows a
genuinely failed attempt numbered 1–4 and equals the capped formula. -/
def sleepSpecInv (o : Nat → AttemptOutcome) (r : Nat → ℚ) (st : DlState) : Prop :=
  ∀ e ∈ st.backoffSleeps,
    1 ≤ e.1 ∧ e.1 < 5 ∧ isOkOutcome (o e.1) = false
    ∧ e.2 = min ((2 : ℚ) ^ (e.1 - 1) + r e.1) 30 ∧ e.2 ≤ 30

/-- The failing track of the exhausted-retries run, as the orchestrator
reads it from the catalog (not yet downloaded). -/
def c1song : DlSong :=
  ⟨"KV1", "A1", "T1", none, none, some "2024-01-01", "/dl1", [], 0, 0⟩

/-- The catalog row for that track before the run. -/
def c1row : SongRow :=
  ⟨"KV1", some "A1", none, some "T1", none, some "2024-01-01", some "/dl1", [], 0, 0⟩

/-- Two upsert inputs sharing the identifier `KV6`, for the C6 witness. -/
def w6a : SongInput :=
  ⟨.str "KV6", .str "A", .absent, .str "T", .absent, .absent, .absent, .absent, none, none⟩

/-- The later write for `KV6`. -/
def w6b : SongInput :=
  ⟨.str "KV6", .str "B", .absent, .str "U", .absent, .absent, .absent, .absent, none, some 1⟩

/-! ## Theorems -/

/-- C5: when every attempt of a page fetch fails, exactly 3 attempts are
performed, with sleeps of `2 ^ 0 = 1` and `2 ^ 1 = 2` seconds between
consecutive attempts, and the call returns `([], hasNextPage = false)`
instead of raising. -/
theorem C5_page_retry_exhaustion (fetchRes : Nat → Except PageErr (List Song × Bool))
    (errs : Nat → PageErr) (hf : ∀ a, fetchRes a = .error (errs a)) :
    scrape_songs_on_page fetchRes = ⟨([], false), 3, [1, 2]⟩ := by
  simp [scrape_songs_on_page, scrapePageLoop, hf]

/-- Witness for C5 at the constant network-failure source. -/
theorem C5_page_retry_exhaustion_witness :
    scrape_songs_on_page (fun _ => .error PageErr.network) = ⟨([], false), 3, [1, 2]⟩ :=
  C5_page_retry_exhaustion (fun _ => .error PageErr.network) (fun _ => PageErr.network)
    (fun _ => rfl)

/-- C3: when the target archive already exists and passes the integrity
check, `download_song` issues no network request, leaves the files
untouched, records exactly the one file name on the song, marks it
downloaded, and emits `download_finished`. -/
theorem C3_idempotent_refetch (o : Nat → AttemptOutcome) (r : Nat → ℚ) (song : DlSong)
    (unzip : Bool) (extract : ExtractResult) (fs0 : FileState)
    (hExists : fs0.finalExists = true) :
    (download_song o r song unzip extract fs0 true).netRequests = 0
    ∧ (download_song o r song unzip extract fs0 true).fs = fs0
    ∧ (download_song o r song unzip extract fs0 true).song
        = { song with
              file_path := [sanitize_filename song.artist song.title song.song_id]
              downloaded := 1 }
    ∧ (download_song o r song unzip extract fs0 true).events = [.finished song.song_id] := by
  simp [download_song, hExists]

/-- Witness for C3 at a concrete song and file state. -/
theorem C3_idempotent_refetch_witness :
    (download_song (fun _ => .resolveFail) (fun _ => 0)
        ⟨"KV7", "Ab", "Cd", none, none, none, "/dl", [], 0, 0⟩
        false .raised ⟨true, false⟩ true).netRequests = 0
    ∧ (download_song (fun _ => .resolveFail) (fun _ => 0)
        ⟨"KV7", "Ab", "Cd", none, none, none, "/dl", [], 0, 0⟩
        false .raised ⟨true, false⟩ true).song.file_path = ["Ab - Cd - KV7.zip"] := by
  have h := C3_idempotent_refetch (fun _ => .resolveFail) (fun _ => 0)
    ⟨"KV7", "Ab", "Cd", none, none, none, "/dl", [], 0, 0⟩
    false .raised ⟨true, false⟩ rfl
  refine ⟨h.1, ?_⟩
  rw [h.2.2.1]
  decide

/-- C2 counterexample: with two pages — page 1 `[KV101, KV100]`
(containing the watermark) and page 2 `[KV099]` — and page 2's result
arriving first, the reconciliation result contains `KV099`, a track
sitting at/after the watermark in the newest-first listing, i.e. one
already known as of the watermark.  So the claim's early-stop bound
fails for more than one page under completion-order processing. -/
theorem C2_counterexample :
    kv099 ∈ (scrape_all_pages [(2, .ok [kv099]), (1, .ok [kv101, kv100])]
        (some "KV100") false).1
    ∧ kv099 ∈ ([kv101, kv100] ++ [kv099]).dropWhile (fun s => !(s.song_id == "KV100")) := by
  decide

/-- The watermark test, when a non-empty watermark is supplied and no
full rescan is forced, is exactly an identifier match. -/
theorem isLastSong_eq_of_ne (w : String) (hw : w ≠ "") (s : Song) :
    isLastSong (some w) false s = (s.song_id == w) := by
  simp [isLastSong, hw]

/-- The inner page loop takes the prefix before the first watermark hit
and reports whether the watermark was seen. -/
theorem collectSongs_eq (lid : Option String) (v : Bool) (songs : List Song) :
    collectSongs lid v songs
      = (songs.takeWhile (fun s => !isLastSong lid v s), songs.any (isLastSong lid v)) := by
  induction songs with
  | nil => simp [collectSongs]
  | cons s rest ih =>
    cases h : isLastSong lid v s <;>
      simp [collectSongs, h, ih, List.takeWhile_cons]

/-- `takeWhile` over an append whose first part wholly satisfies the
predicate. -/
theorem takeWhile_append_of_all {α : Type} {p : α → Bool} {l1 l2 : List α}
    (h : ∀ a ∈ l1, p a = true) :
    (l1 ++ l2).takeWhile p = l1 ++ l2.takeWhile p := by
  induction l1 with
  | nil => simp
  | cons a t ih =>
    have ha := h a (by simp)
    simp [List.takeWhile_cons, ha]
    exact ih fun b hb => h b (by simp [hb])

/-- `takeWhile` over an append whose first part contains a failure. -/
theorem takeWhile_append_of_any {α : Type} {p : α → Bool} {l1 l2 : List α}
    (h : ∃ a ∈ l1, p a = false) :
    (l1 ++ l2).takeWhile p = l1.takeWhile p := by
  induction l1 with
  | nil => simp at h
  | cons a t ih =>
    cases ha : p a with
    | false => simp [List.takeWhile_cons, ha]
    | true =>
      obtain ⟨b, hb, hpb⟩ := h
      rcases List.mem_cons.mp hb with rfl | hbt
      · exact absurd ha (by simp [hpb])
      · simp [List.takeWhile_cons, ha]
        exact ih ⟨b, hbt, hpb⟩

/-- C2 as amended: when page results are processed in page order (in
particular when there is a single page), reconciliation with a
non-empty watermark and no forced rescan returns exactly the prefix of
the newest-first listing strictly before the first occurrence of the
watermark — hence no track already known as of the watermark.  (With
out-of-order completion, pages whose results arrive before the
watermark is seen contribute their already-known tracks, as
`C2_counterexample` shows.) -/
theorem C2_corrected (comps : List (Nat × PageOutcome)) (pages : List (List Song))
    (w : String) (hw : w ≠ "")
    (hc : comps.map Prod.snd = pages.map PageOutcome.ok) :
    (scrape_all_pages comps (some w) false).1
      = pages.flatten.takeWhile (fun s => !(s.song_id == w)) := by
  induction comps generalizing pages with
  | nil =>
    cases pages with
    | nil => simp [scrape_all_pages, scrapeCompleted]
    | cons p ps => simp at hc
  | cons c rest ih =>
    cases pages with
    | nil => simp at hc
    | cons p ps =>
      obtain ⟨pn, oc⟩ := c
      simp only [List.map_cons, List.cons.injEq] at hc
      obtain ⟨hco, hcr⟩ := hc
      subst hco
      have hfun : isLastSong (some w) false = (fun s : Song => s.song_id == w) :=
        funext (isLastSong_eq_of_ne w hw)
      simp only [scrape_all_pages, scrapeCompleted, collectSongs_eq, hfun, List.flatten_cons]
      have ih' := ih ps hcr
      simp only [scrape_all_pages] at ih'
      cases hany : p.any (fun s => s.song_id == w) with
      | true =>
        have hwit : ∃ a ∈ p, (!(a.song_id == w)) = false := by
          obtain ⟨a, ha, hpa⟩ := List.any_eq_true.mp hany
          exact ⟨a, ha, by simp [hpa]⟩
        rw [if_pos rfl]
        rw [takeWhile_append_of_any hwit]
      | false =>
        have hall : ∀ a ∈ p, (!(a.song_id == w)) = true := by
          intro a ha
          cases hx : (a.song_id == w) with
          | false => simp [hx]
          | true =>
            have hy : p.any (fun s => s.song_id == w) = true :=
              List.any_eq_true.mpr ⟨a, ha, hx⟩
            rw [hany] at hy
            exact absurd hy (by simp)
        rw [if_neg (by decide : ¬false = true)]
        rw [takeWhile_append_of_all hall, List.takeWhile_eq_self_iff.mpr hall, ih']

/-- Witness for the amended C2 at the new-purchase-delta scenario: one
remote page `[KV101, KV100]` and watermark `KV100` yield exactly
`[KV101]`. -/
theorem C2_corrected_witness :
    (scrape_all_pages [(1, .ok [kv101, kv100])] (some "KV100") false).1 = [kv101] := by
  have h := C2_corrected [(1, .ok [kv101, kv100])] [[kv101, kv100]] "KV100"
    (by decide) rfl
  rw [h]
  decide

/-- C9: `save_song` raises `ValueError` exactly when the identifier is
falsy (absent, `None`, or the empty string) — so never for a non-empty
identifier — and a raising call leaves the table unchanged. -/
theorem C9_identifier_validation (db : List SongRow) (song : SongInput) :
    ((save_song_run db song).2 = song.song_id.falsy)
    ∧ ((save_song_run db song).2 = true → (save_song_run db song).1 = db) := by
  unfold save_song_run save_song
  cases h : song.song_id.falsy <;> simp [h]

/-- Witness for C9: an empty identifier raises and leaves the (empty)
table unchanged. -/
theorem C9_identifier_validation_witness :
    ((save_song_run []
        ⟨.str "", .str "A", .absent, .str "T", .absent, .absent, .absent, .absent,
          none, none⟩).2 = true)
    ∧ (save_song_run []
        ⟨.str "", .str "A", .absent, .str "T", .absent, .absent, .absent, .absent,
          none, none⟩).1 = [] := by
  have h := C9_identifier_validation []
    ⟨.str "", .str "A", .absent, .str "T", .absent, .absent, .absent, .absent, none, none⟩
  have h1 : (save_song_run []
      ⟨.str "", .str "A", .absent, .str "T", .absent, .absent, .absent, .absent,
        none, none⟩).2 = true := by
    rw [h.1]
    decide
  exact ⟨h1, h.2 h1⟩

/-- C10 counterexample: for a present-but-empty artist field the stored
value is `""`, not the claimed `"Unknown"` — the `"Unknown"` default
only applies to absent keys, because
`song[field] = song.get(field, "Unknown")` returns the existing empty
string when the key is present. -/
theorem C10_counterexample :
    (save_song_run [] c10song).2 = false
    ∧ (save_song_run [] c10song).1 = [makeRow c10song]
    ∧ (makeRow c10song).artist = some ""
    ∧ (makeRow c10song).artist ≠ some "Unknown" := by
  decide

/-- C10 as amended: a record with a non-empty identifier is never
rejected (only the identifier is validated); `"Unknown"` is stored for
an *absent* artist/title key, while a present-but-empty field is stored
as the empty string. -/
theorem C10_corrected (db : List SongRow) (song : SongInput)
    (hid : song.song_id.falsy = false) :
    (save_song_run db song).2 = false
    ∧ (song.artist = .absent → (makeRow song).artist = some "Unknown")
    ∧ (song.title = .absent → (makeRow song).title = some "Unknown")
    ∧ (song.artist = .str "" → (makeRow song).artist = some "")
    ∧ (song.title = .str "" → (makeRow song).title = some "") := by
  refine ⟨by simp [save_song_run, save_song, hid], ?_, ?_, ?_, ?_⟩ <;>
    intro h <;>
    simp [makeRow, normalizeRequired, h, FieldVal.falsy, FieldVal.getD]

/-- Witness for the amended C10: absent artist stored as `"Unknown"`,
empty title stored as `""`, and the save succeeds. -/
theorem C10_corrected_witness :
    (save_song_run []
        ⟨.str "KV2", .absent, .absent, .str "", .absent, .absent, .absent, .absent,
          none, none⟩).2 = false
    ∧ (makeRow ⟨.str "KV2", .absent, .absent, .str "", .absent, .absent, .absent, .absent,
          none, none⟩).artist = some "Unknown"
    ∧ (makeRow ⟨.str "KV2", .absent, .absent, .str "", .absent, .absent, .absent, .absent,
          none, none⟩).title = some "" := by
  have h := C10_corrected []
    ⟨.str "KV2", .absent, .absent, .str "", .absent, .absent, .absent, .absent, none, none⟩
    (by decide)
  exact ⟨h.1, h.2.1 rfl, h.2.2.2.2 rfl⟩

/-- Lookup after an upsert: the upserted key now maps to the new row,
every other key is unaffected. -/
theorem lookupRow_upsertRow (db : List SongRow) (r : SongRow) (id : String) :
    lookupRow (upsertRow db r) id = if r.song_id == id then some r else lookupRow db id := by
  induction db with
  | nil =>
    cases hr : r.song_id == id with
    | true =>
      have hre : r.song_id = id := by simpa using hr
      simp [upsertRow, lookupRow, List.find?, hr, hre]
    | false =>
      have hre : ¬r.song_id = id := by simpa using hr
      simp [upsertRow, lookupRow, List.find?, hr, hre]
  | cons x xs ih =>
    unfold upsertRow
    cases hx : x.song_id == r.song_id with
    | true =>
      have hxe : x.song_id = r.song_id := by simpa using hx
      simp only [if_pos rfl]
      cases hr : r.song_id == id with
      | true => simp [lookupRow, List.find?, hr]
      | false =>
        have hxm : (x.song_id == id) = false := by
          simp only [hxe]
          exact hr
        simp [lookupRow, List.find?, hr, hxm]
    | false =>
      simp only [Bool.false_eq_true, if_false]
      cases hxi : x.song_id == id with
      | true =>
        have h1 : x.song_id = id := by simpa using hxi
        have h2 : ¬x.song_id = r.song_id := by simpa using hx
        have h3 : ¬r.song_id = id := fun hh => h2 (h1.trans hh.symm)
        simp [lookupRow, List.find?, hxi, h3]
      | false => simpa [lookupRow, List.find?, hxi] using ih

/-- Keys after an upsert: unchanged when the key was present, appended
otherwise. -/
theorem dbKeys_upsertRow (db : List SongRow) (r : SongRow) :
    dbKeys (upsertRow db r)
      = if r.song_id ∈ dbKeys db then dbKeys db else dbKeys db ++ [r.song_id] := by
  induction db with
  | nil => simp [upsertRow, dbKeys]
  | cons x xs ih =>
    unfold upsertRow
    cases hx : x.song_id == r.song_id with
    | true =>
      have hxe : x.song_id = r.song_id := by simpa using hx
      simp [dbKeys, hxe]
    | false =>
      have hxe : ¬x.song_id = r.song_id := by simpa using hx
      have hxe' : ¬r.song_id = x.song_id := fun h => hxe h.symm
      simp only [hx, Bool.false_eq_true, if_false]
      have hks : dbKeys (x :: upsertRow xs r) = x.song_id :: dbKeys (upsertRow xs r) := rfl
      rw [hks, ih]
      by_cases hm : r.song_id ∈ dbKeys xs
      · rw [if_pos hm, if_pos (show r.song_id ∈ dbKeys (x :: xs) from
          List.mem_cons_of_mem _ hm)]
        rfl
      · have hm' : r.song_id ∉ dbKeys (x :: xs) := by
          intro hc
          rcases List.mem_cons.mp hc with h1 | h2
          · exact hxe' h1
          · exact hm h2
        rw [if_neg hm, if_neg hm']
        rfl

/-- Upserting preserves key uniqueness. -/
theorem dbKeys_nodup_upsertRow (db : List SongRow) (r : SongRow)
    (h : (dbKeys db).Nodup) : (dbKeys (upsertRow db r)).Nodup := by
  rw [dbKeys_upsertRow]
  by_cases hm : r.song_id ∈ dbKeys db
  · simpa [hm] using h
  · rw [if_neg hm]
    exact List.nodup_append.mpr ⟨h, List.nodup_singleton _, by
      intro a ha hb
      simp at hb
      exact hm (hb ▸ ha)⟩

/-- The key set after an upsert. -/
theorem dbKeys_toFinset_upsertRow (db : List SongRow) (r : SongRow) :
    (dbKeys (upsertRow db r)).toFinset = insert r.song_id (dbKeys db).toFinset := by
  rw [dbKeys_upsertRow]
  by_cases hm : r.song_id ∈ dbKeys db
  · rw [if_pos hm]
    exact (Finset.insert_eq_self.mpr (List.mem_toFinset.mpr hm)).symm
  · rw [if_neg hm, List.toFinset_append]
    simp [Finset.union_comm, Finset.insert_eq]

/-- Lookup after a fold of upserts: the last upsert with the key wins;
otherwise the original table answers. -/
theorem lookupRow_foldl_upsert (rows : List SongRow) :
    ∀ (db : List SongRow) (id : String),
      lookupRow (rows.foldl upsertRow db) id
        = match lastMatch id rows with
          | some x => some x
          | none => lookupRow db id := by
  induction rows with
  | nil => intro db id; simp [lastMatch]
  | cons r rest ih =>
    intro db id
    simp only [List.foldl_cons]
    rw [ih]
    cases hl : lastMatch id rest with
    | some x => simp [lastMatch, hl]
    | none =>
      rw [lookupRow_upsertRow]
      cases hr : r.song_id == id with
      | true => simp [lastMatch, hl, hr]
      | false => simp [lastMatch, hl, hr]

/-- Key uniqueness is preserved by a fold of upserts. -/
theorem dbKeys_nodup_foldl (rows : List SongRow) :
    ∀ db, (dbKeys db).Nodup → (dbKeys (rows.foldl upsertRow db)).Nodup := by
  induction rows with
  | nil => intro db h; simpa
  | cons r rest ih =>
    intro db h
    simpa using ih (upsertRow db r) (dbKeys_nodup_upsertRow db r h)

/-- The key set produced by a fold of upserts. -/
theorem dbKeys_toFinset_foldl (rows : List SongRow) :
    ∀ db, (dbKeys (rows.foldl upsertRow db)).toFinset
        = (dbKeys db).toFinset ∪ (rows.map (fun r => r.song_id)).toFinset := by
  induction rows with
  | nil => intro db; simp
  | cons r rest ih =>
    intro db
    rw [List.foldl_cons, ih (upsertRow db r), dbKeys_toFinset_upsertRow]
    simp [Finset.insert_union, Finset.union_insert]

/-- A `save_song` sequence is the fold of upserts over its valid rows
(failed validations leave the table unchanged). -/
theorem runSaves_eq_foldl (inputs : List SongInput) :
    ∀ db, runSaves db inputs = (inputs.filterMap validRow?).foldl upsertRow db := by
  induction inputs with
  | nil => intro db; simp [runSaves]
  | cons s rest ih =>
    intro db
    cases hs : s.song_id.falsy with
    | true => simp [runSaves, save_song_run, save_song, validRow?, hs, ih]
    | false => simp [runSaves, save_song_run, save_song, validRow?, hs, ih]

/-- C6: after any sequence of `save_song` calls on an initially empty
table, the table has pairwise-distinct identifiers, its row count is the
number of distinct identifiers ever successfully upserted, and each
identifier's row is exactly the one written by the most recent
successful upsert with that identifier. -/
theorem C6_upsert_uniqueness (inputs : List SongInput) :
    (dbKeys (runSaves [] inputs)).Nodup
    ∧ (runSaves [] inputs).length
        = ((inputs.filterMap validRow?).map (fun r => r.song_id)).toFinset.card
    ∧ ∀ id, lookupRow (runSaves [] inputs) id = lastMatch id (inputs.filterMap validRow?) := by
  have hfold := runSaves_eq_foldl inputs []
  have hnil : (dbKeys ([] : List SongRow)).Nodup := by simp [dbKeys]
  refine ⟨?_, ?_, ?_⟩
  · rw [hfold]
    exact dbKeys_nodup_foldl _ [] hnil
  · rw [hfold]
    have hnd := dbKeys_nodup_foldl (inputs.filterMap validRow?) [] hnil
    have hfs := dbKeys_toFinset_foldl (inputs.filterMap validRow?) []
    calc ((inputs.filterMap validRow?).foldl upsertRow []).length
        = (dbKeys ((inputs.filterMap validRow?).foldl upsertRow [])).length := by
          simp [dbKeys]
      _ = (dbKeys ((inputs.filterMap validRow?).foldl upsertRow [])).toFinset.card :=
          (List.toFinset_card_of_nodup hnd).symm
      _ = ((inputs.filterMap validRow?).map (fun r => r.song_id)).toFinset.card := by
          rw [hfs]
          simp [dbKeys]
  · intro id
    rw [hfold, lookupRow_foldl_upsert]
    cases hl : lastMatch id (inputs.filterMap validRow?) with
    | some x => simp
    | none => simp [lookupRow, List.find?]

/-- C7: after any `update_log_operation` call the operation log holds at
most 100 entries; every retained entry comes from the updated log, and
every entry dropped by the purge has a start time no later than that of
every retained entry — the retained entries are the most recent ones by
start time. -/
theorem C7_log_cap (log : List LogEntry) (logId status details : String) (endTime : Nat) :
    (update_log_operation log logId status details endTime).length ≤ 100
    ∧ (∀ e ∈ update_log_operation log logId status details endTime,
        e ∈ applyLogUpdate log logId status details endTime)
    ∧ (update_log_operation log logId status details endTime).length
        = min 100 (applyLogUpdate log logId status details endTime).length
    ∧ (∀ e ∈ applyLogUpdate log logId status details endTime,
        e ∉ update_log_operation log logId status details endTime →
        ∀ k ∈ update_log_operation log logId status details endTime,
          e.start_time ≤ k.start_time) := by
  set u := applyLogUpdate log logId status details endTime with hu
  have hperm : List.Perm (List.insertionSort logDesc u) u := List.perm_insertionSort logDesc u
  have hsorted : List.Sorted logDesc (List.insertionSort logDesc u) :=
    List.sorted_insertionSort logDesc u
  refine ⟨?_, ?_, ?_, ?_⟩
  · exact List.length_take_le 100 _
  · intro e he
    exact hperm.subset (List.mem_of_mem_take he)
  · have : (List.insertionSort logDesc u).length = u.length := hperm.length_eq
    simp [update_log_operation, purgeOldLogs, List.length_take, this]
  · intro e he hnotin k hk
    have hes : e ∈ List.insertionSort logDesc u := hperm.mem_iff.mpr he
    have hdrop : e ∈ (List.insertionSort logDesc u).drop 100 := by
      rcases (List.mem_append.mp
        ((List.take_append_drop 100 (List.insertionSort logDesc u)) ▸ hes)) with h1 | h2
      · exact absurd h1 hnotin
      · exact h2
    exact hsorted.rel_of_mem_take_of_mem_drop hk hdrop

/-- Witness for C7 at a concrete three-entry log. -/
theorem C7_log_cap_witness :
    (update_log_operation
        [⟨"AA", "reconcile", 3, none, "running", ""⟩,
         ⟨"BB", "download", 1, some 2, "success", "ok"⟩]
        "AA" "success" "done" 9).length ≤ 100
    ∧ ⟨"AA", "reconcile", 3, some 9, "success", "done"⟩ ∈
        applyLogUpdate
          [⟨"AA", "reconcile", 3, none, "running", ""⟩,
           ⟨"BB", "download", 1, some 2, "success", "ok"⟩]
          "AA" "success" "done" 9 := by
  have h := C7_log_cap
    [⟨"AA", "reconcile", 3, none, "running", ""⟩,
     ⟨"BB", "download", 1, some 2, "success", "ok"⟩]
    "AA" "success" "done" 9
  exact ⟨h.1, h.2.1 ⟨"AA", "reconcile", 3, some 9, "success", "done"⟩ (by decide)⟩

/-- The success tail does not touch the failure trace. -/
theorem applySuccess_fsTrace (unzip : Bool) (fileName : String) (extract : ExtractResult)
    (rt : Nat) (st : DlState) :
    (applySuccess unzip fileName extract rt st).fsTrace = st.fsTrace := by
  cases unzip <;> cases extract <;> rfl

/-- Recording a failed attempt preserves the cleanup property: the
appended entry's file state is `⟨false, false⟩` whenever the failure
kind reaches the generic handler. -/
theorem fsCleanupInv_applyFail (attempt : Nat) (fo : AttemptOutcome) (st : DlState)
    (h : fsCleanupInv st) : fsCleanupInv (applyFail attempt fo st) := by
  intro x hx hcx
  rcases List.mem_append.mp
      (show x ∈ st.fsTrace ++ [(attempt, fo, failFs st.fs fo)] from hx) with h1 | h2
  · exact h x h1 hcx
  · have hxe : x = (attempt, fo, failFs st.fs fo) := by simpa using h2
    subst hxe
    cases fo with
    | resolveFail => rfl
    | integrityFail rt => rfl
    | otherFail rt tc => rfl
    | requestError rt tc => simp [cleanupOutcome] at hcx
    | ok rt => simp [cleanupOutcome] at hcx

/-- The retry loop preserves the cleanup property of the trace. -/
theorem dlLoop_fsCleanup (o : Nat → AttemptOutcome) (r : Nat → ℚ) (unzip : Bool)
    (fileName : String) (extract : ExtractResult) :
    ∀ (fuel : Nat) (st : DlState), fsCleanupInv st →
      fsCleanupInv (dlLoop o r unzip fileName extract fuel st) := by
  intro fuel
  induction fuel with
  | zero =>
    intro st hst e he
    unfold dlLoop at he
    exact hst e he
  | succ f ih =>
    intro st hst e he
    revert he
    unfold dlLoop
    cases ho : o (5 - f) with
    | ok rt =>
      intro he
      simp only [applySuccess_fsTrace] at he
      exact hst e he
    | resolveFail =>
      dsimp only
      by_cases hf : f = 0
      · rw [if_pos hf]
        intro he
        exact fsCleanupInv_applyFail _ _ _ hst e he
      · rw [if_neg hf]
        intro he
        exact ih (addSleep (5 - f) r (applyFail (5 - f) _ st))
          (fun x hx hcx => fsCleanupInv_applyFail _ _ _ hst x hx hcx) e he
    | requestError rt tc =>
      dsimp only
      by_cases hf : f = 0
      · rw [if_pos hf]
        intro he
        exact fsCleanupInv_applyFail _ _ _ hst e he
      · rw [if_neg hf]
        intro he
        exact ih (addSleep (5 - f) r (applyFail (5 - f) _ st))
          (fun x hx hcx => fsCleanupInv_applyFail _ _ _ hst x hx hcx) e he
    | integrityFail rt =>
      dsimp only
      by_cases hf : f = 0
      · rw [if_pos hf]
        intro he
        exact fsCleanupInv_applyFail _ _ _ hst e he
      · rw [if_neg hf]
        intro he
        exact ih (addSleep (5 - f) r (applyFail (5 - f) _ st))
          (fun x hx hcx => fsCleanupInv_applyFail _ _ _ hst x hx hcx) e he
    | otherFail rt tc =>
      dsimp only
      by_cases hf : f = 0
      · rw [if_pos hf]
        intro he
        exact fsCleanupInv_applyFail _ _ _ hst e he
      · rw [if_neg hf]
        intro he
        exact ih (addSleep (5 - f) r (applyFail (5 - f) _ st))
          (fun x hx hcx => fsCleanupInv_applyFail _ _ _ hst x hx hcx) e he

/-- C4 counterexample: attempt 1 fails with a
`requests.RequestException` in mid-stream (a partial `.tmp` file was
written), and attempt 2 begins — with the partial `.tmp` file still on
disk, because the `RequestException` handler performs no cleanup.  The
second trace entry shows attempt 2 also ran, so attempt 1 was indeed
followed by another attempt. -/
theorem C4_counterexample :
    ((download_song (fun _ => .requestError 1 true) (fun _ => 0) c4song false .raised
        ⟨false, false⟩ false).fsTrace.get? 0
      = some (1, .requestError 1 true, ⟨false, true⟩))
    ∧ ((download_song (fun _ => .requestError 1 true) (fun _ => 0) c4song false .raised
        ⟨false, false⟩ false).fsTrace.get? 1
      = some (2, .requestError 1 true, ⟨false, true⟩)) := by
  decide

/-- C4 as amended: before the next attempt begins, partial temp/final
files are deleted for every failure that reaches the generic
`except Exception` handler — URL-resolution failures, integrity
failures, and any other non-`requests` error; a
`requests.RequestException` is caught by the earlier handler, which
deletes nothing, so a partial temp file can persist into the next
attempt (`C4_counterexample`). -/
theorem C4_corrected (o : Nat → AttemptOutcome) (r : Nat → ℚ) (song : DlSong)
    (unzip : Bool) (extract : ExtractResult) (fs0 : FileState) (initValid : Bool) :
    ∀ e ∈ (download_song o r song unzip extract fs0 initValid).fsTrace,
      cleanupOutcome e.2.1 = true → e.2.2 = ⟨false, false⟩ := by
  unfold download_song
  by_cases h : (fs0.finalExists && initValid) = true
  · rw [if_pos h]
    intro e he
    exact absurd he (List.not_mem_nil e)
  · rw [if_neg h]
    exact dlLoop_fsCleanup o r unzip _ extract 5 _
      (fun e he => absurd he (List.not_mem_nil e))

/-- Witness for the amended C4: a resolution failure on attempt 1 leaves
a clean file state for attempt 2. -/
theorem C4_corrected_witness :
    ((1, AttemptOutcome.resolveFail, (⟨false, false⟩ : FileState)) ∈
        (download_song (fun _ => .resolveFail) (fun _ => 0) c4song false .raised
          ⟨false, false⟩ false).fsTrace)
    ∧ ((1, AttemptOutcome.resolveFail, (⟨false, false⟩ : FileState)).2.2
        = (⟨false, false⟩ : FileState)) := by
  have hmem : (1, AttemptOutcome.resolveFail, (⟨false, false⟩ : FileState)) ∈
      (download_song (fun _ => .resolveFail) (fun _ => 0) c4song false .raised
        ⟨false, false⟩ false).fsTrace := by decide
  exact ⟨hmem, C4_corrected (fun _ => .resolveFail) (fun _ => 0) c4song false .raised
    ⟨false, false⟩ false _ hmem (by decide)⟩

/-- The success tail does not touch the backoff-sleep trace. -/
theorem applySuccess_backoffSleeps (unzip : Bool) (fileName : String)
    (extract : ExtractResult) (rt : Nat) (st : DlState) :
    (applySuccess unzip fileName extract rt st).backoffSleeps = st.backoffSleeps := by
  cases unzip <;> cases extract <;> rfl

/-- The retry loop preserves the backoff-sleep property. -/
theorem dlLoop_sleepSpec (o : Nat → AttemptOutcome) (r : Nat → ℚ) (unzip : Bool)
    (fileName : String) (extract : ExtractResult) :
    ∀ (fuel : Nat), fuel ≤ 5 → ∀ st : DlState, sleepSpecInv o r st →
      sleepSpecInv o r (dlLoop o r unzip fileName extract fuel st) := by
  intro fuel
  induction fuel with
  | zero =>
    intro _ st hst e he
    unfold dlLoop at he
    exact hst e he
  | succ f ih =>
    intro hle st hst e he
    revert he
    unfold dlLoop
    cases ho : o (5 - f) with
    | ok rt =>
      intro he
      simp only [applySuccess_backoffSleeps] at he
      exact hst e he
    | resolveFail =>
      dsimp only
      by_cases hf : f = 0
      · rw [if_pos hf]
        intro he
        exact hst e he
      · rw [if_neg hf]
        intro he
        refine ih (by omega) _ ?_ e he
        intro x hx
        rcases List.mem_append.mp
            (show x ∈ st.backoffSleeps ++
              [(5 - f, min ((2 : ℚ) ^ (5 - f - 1) + r (5 - f)) 30)] from hx) with h1 | h2
        · exact hst x h1
        · have hxe : x = (5 - f, min ((2 : ℚ) ^ (5 - f - 1) + r (5 - f)) 30) := by
            simpa using h2
          subst hxe
          refine ⟨by omega, by omega, ?_, rfl, min_le_right _ _⟩
          rw [ho]
          rfl
    | requestError rt tc =>
      dsimp only
      by_cases hf : f = 0
      · rw [if_pos hf]
        intro he
        exact hst e he
      · rw [if_neg hf]
        intro he
        refine ih (by omega) _ ?_ e he
        intro x hx
        rcases List.mem_append.mp
            (show x ∈ st.backoffSleeps ++
              [(5 - f, min ((2 : ℚ) ^ (5 - f - 1) + r (5 - f)) 30)] from hx) with h1 | h2
        · exact hst x h1
        · have hxe : x = (5 - f, min ((2 : ℚ) ^ (5 - f - 1) + r (5 - f)) 30) := by
            simpa using h2
          subst hxe
          refine ⟨by omega, by omega, ?_, rfl, min_le_right _ _⟩
          rw [ho]
          rfl
    | integrityFail rt =>
      dsimp only
      by_cases hf : f = 0
      · rw [if_pos hf]
        intro he
        exact hst e he
      · rw [if_neg hf]
        intro he
        refine ih (by omega) _ ?_ e he
        intro x hx
        rcases List.mem_append.mp
            (show x ∈ st.backoffSleeps ++
              [(5 - f, min ((2 : ℚ) ^ (5 - f - 1) + r (5 - f)) 30)] from hx) with h1 | h2
        · exact hst x h1
        · have hxe : x = (5 - f, min ((2 : ℚ) ^ (5 - f - 1) + r (5 - f)) 30) := by
            simpa using h2
          subst hxe
          refine ⟨by omega, by omega, ?_, rfl, min_le_right _ _⟩
          rw [ho]
          rfl
    | otherFail rt tc =>
      dsimp only
      by_cases hf : f = 0
      · rw [if_pos hf]
        intro he
        exact hst e he
      · rw [if_neg hf]
        intro he
        refine ih (by omega) _ ?_ e he
        intro x hx
        rcases List.mem_append.mp
            (show x ∈ st.backoffSleeps ++
              [(5 - f, min ((2 : ℚ) ^ (5 - f - 1) + r (5 - f)) 30)] from hx) with h1 | h2
        · exact hst x h1
        · have hxe : x = (5 - f, min ((2 : ℚ) ^ (5 - f - 1) + r (5 - f)) 30) := by
            simpa using h2
          subst hxe
          refine ⟨by omega, by omega, ?_, rfl, min_le_right _ _⟩
          rw [ho]
          rfl

/-- C8: every backoff delay recorded by a `download_song` run follows a
failed attempt `k` with `1 ≤ k < 5` (so no delay is slept after the 5th
attempt), equals `min(2^(k-1) + rr, 30)` for the value `rr ∈ [0, 1)`
drawn by `random.uniform(0, 1)`, and is therefore at most 30 seconds. -/
theorem C8_backoff_formula (o : Nat → AttemptOutcome) (r : Nat → ℚ)
    (hr : ∀ k, 0 ≤ r k ∧ r k < 1) (song : DlSong) (unzip : Bool)
    (extract : ExtractResult) (fs0 : FileState) (initValid : Bool) :
    ∀ e ∈ (download_song o r song unzip extract fs0 initValid).backoffSleeps,
      1 ≤ e.1 ∧ e.1 < 5
      ∧ isOkOutcome (o e.1) = false
      ∧ (∃ rr, 0 ≤ rr ∧ rr < 1 ∧ e.2 = min ((2 : ℚ) ^ (e.1 - 1) + rr) 30)
      ∧ e.2 ≤ 30 := by
  intro e he
  have hrun : sleepSpecInv o r (download_song o r song unzip extract fs0 initValid) := by
    unfold download_song
    by_cases h : (fs0.finalExists && initValid) = true
    · rw [if_pos h]
      intro x hx
      exact absurd hx (List.not_mem_nil x)
    · rw [if_neg h]
      exact dlLoop_sleepSpec o r unzip _ extract 5 (by omega) _
        (fun x hx => absurd hx (List.not_mem_nil x))
  obtain ⟨h1, h2, h3, h4, h5⟩ := hrun e he
  exact ⟨h1, h2, h3, ⟨r e.1, (hr e.1).1, (hr e.1).2, h4⟩, h5⟩

/-- Witness for C8: with every attempt failing and
`random.uniform(0,1) = 1/2`, the backoff trace is exactly the four
capped-formula delays for attempts 1–4, and the first entry follows
failed attempt 1 and is within the cap. -/
theorem C8_backoff_formula_witness :
    (((1 : Nat), min ((2 : ℚ) ^ ((1 : Nat) - 1) + (1 : ℚ)/2) 30) ∈
        (download_song (fun _ => .requestError 1 false) (fun _ => (1 : ℚ)/2) c4song
          false .raised ⟨false, false⟩ false).backoffSleeps)
    ∧ (1 : Nat) < 5
    ∧ min ((2 : ℚ) ^ ((1 : Nat) - 1) + (1 : ℚ)/2) 30 ≤ 30 := by
  have hlist : (download_song (fun _ => .requestError 1 false) (fun _ => (1 : ℚ)/2) c4song
        false .raised ⟨false, false⟩ false).backoffSleeps
      = [((1 : Nat), min ((2 : ℚ) ^ ((1 : Nat) - 1) + (1 : ℚ)/2) 30),
         ((2 : Nat), min ((2 : ℚ) ^ ((2 : Nat) - 1) + (1 : ℚ)/2) 30),
         ((3 : Nat), min ((2 : ℚ) ^ ((3 : Nat) - 1) + (1 : ℚ)/2) 30),
         ((4 : Nat), min ((2 : ℚ) ^ ((4 : Nat) - 1) + (1 : ℚ)/2) 30)] := rfl
  have hmem : ((1 : Nat), min ((2 : ℚ) ^ ((1 : Nat) - 1) + (1 : ℚ)/2) 30) ∈
      (download_song (fun _ => .requestError 1 false) (fun _ => (1 : ℚ)/2) c4song
        false .raised ⟨false, false⟩ false).backoffSleeps := by
    rw [hlist]
    exact List.mem_cons_self _ _
  have h := C8_backoff_formula (fun _ => .requestError 1 false) (fun _ => (1 : ℚ)/2)
    (fun _ => ⟨by norm_num, by norm_num⟩) c4song false .raised ⟨false, false⟩ false
    ((1 : Nat), min ((2 : ℚ) ^ ((1 : Nat) - 1) + (1 : ℚ)/2) 30) hmem
  exact ⟨hmem, h.2.1, h.2.2.2.2⟩

/-- C1 evidence: when all 5 fetch attempts fail, `download_song` does
mark the song not-downloaded and emits `download_failed` with the
terminal message — but it returns normally, so
`download_and_update` falls through to its success path: it overwrites
the flag with `downloaded = 1`, counts the track as newly downloaded,
and persists `downloaded = 1` with an empty file list to the catalog —
exactly the inconsistent state `validate_database_integrity` flags and
`cleanup_database` repairs. -/
theorem C1_failed_download_persisted_as_downloaded :
    ((DlEvent.failed "KV1" "Download failed after 5 attempts") ∈
        (download_and_update false (fun _ => .requestError 1 false) (fun _ => 0)
          false .raised ⟨false, false⟩ false c1song [c1row]).fetchEvents)
    ∧ (download_song (fun _ => .requestError 1 false) (fun _ => 0) c1song false .raised
        ⟨false, false⟩ false).song.downloaded = 0
    ∧ (download_and_update false (fun _ => .requestError 1 false) (fun _ => 0)
        false .raised ⟨false, false⟩ false c1song [c1row]).song.downloaded = 1
    ∧ ((lookupRow (download_and_update false (fun _ => .requestError 1 false) (fun _ => 0)
          false .raised ⟨false, false⟩ false c1song [c1row]).db "KV1").map
        (fun r => r.downloaded) = some 1)
    ∧ ((lookupRow (download_and_update false (fun _ => .requestError 1 false) (fun _ => 0)
          false .raised ⟨false, false⟩ false c1song [c1row]).db "KV1").map
        (fun r => r.file_path) = some [])
    ∧ (download_and_update false (fun _ => .requestError 1 false) (fun _ => 0)
        false .raised ⟨false, false⟩ false c1song [c1row]).downloadedCountDelta = 1 := by
  decide

/-- Witness for C6 at two writes with the same identifier: one row, and
it is the later write's row. -/
theorem C6_upsert_uniqueness_witness :
    (dbKeys (runSaves [] [w6a, w6b])).Nodup
    ∧ (runSaves [] [w6a, w6b]).length
        = (([w6a, w6b].filterMap validRow?).map (fun r => r.song_id)).toFinset.card
    ∧ lookupRow (runSaves [] [w6a, w6b]) "KV6"
        = lastMatch "KV6" ([w6a, w6b].filterMap validRow?) := by
  have h := C6_upsert_uniqueness [w6a, w6b]
  exact ⟨h.1, h.2.1, h.2.2 "KV6"⟩
